import Mathlib

/-!
# Nexus ontology core — shallow embedding and verification

A shallow embedding of the core of the `nexus` ontology service
(`src/py/nexus/ontology/*.py`) together with theorems settling the
specification claims about it.

Conventions:
* Python `dict` rows become Lean structures; tables become `List` of rows.
* SQL timestamps become `ℤ`; `NULL` becomes `none`.
* Confidence scores and similarity values become `ℚ` (exact arithmetic).
* Fallible operations return `Option` or `Except`.
* Strings are handled through their character list (`String.data`).
-/

namespace Nexus

/-! ## ulid_gen.py — synthetic id minting, parsing and validation -/

/-- Entity types, the `EntityType` literal of `ulid_gen.py`. -/
inductive EntityType where
  | company | security | exchange | index | person
  | org | sector | theme | commodity | fx
deriving DecidableEq, Repr

/-- The `PREFIX_MAP` of `ulid_gen.py`: the two-letter type code of each entity type. -/
def typeCode : EntityType → String
  | .company => "CO"
  | .security => "SE"
  | .exchange => "EX"
  | .index => "IX"
  | .person => "PE"
  | .org => "OR"
  | .sector => "SC"
  | .theme => "TH"
  | .commodity => "CM"
  | .fx => "FX"

/-- The `REVERSE_PREFIX_MAP` of `ulid_gen.py`: two-letter code back to entity type. -/
def codeToType (s : String) : Option EntityType :=
  if s = "CO" then some .company
  else if s = "SE" then some .security
  else if s = "EX" then some .exchange
  else if s = "IX" then some .index
  else if s = "PE" then some .person
  else if s = "OR" then some .org
  else if s = "SC" then some .sector
  else if s = "TH" then some .theme
  else if s = "CM" then some .commodity
  else if s = "FX" then some .fx
  else none

/-- Python `s.split(c, 1)` on a character list: split at the first occurrence
of `c`, returning the part before and the part after, or `none` when `c` does
not occur. -/
def splitOnce (c : Char) : List Char → Option (List Char × List Char)
  | [] => none
  | x :: xs =>
    if x = c then some ([], xs)
    else (splitOnce c xs).map (fun p => (x :: p.1, p.2))

/-- The `parse_syn_id` of `ulid_gen.py`.  Fails (`none`; the code raises
`ValueError`) when the string is empty or has no underscore, when the part
before the first underscore is not a known two-letter type code, or when the
part after it is not exactly 26 characters long. -/
def parse_syn_id (s : String) : Option (EntityType × String) :=
  if s = "" then none
  else
    match splitOnce '_' s.data with
    | none => none
    | some (pre, rest) =>
      match codeToType (String.mk pre) with
      | none => none
      | some et =>
        if rest.length = 26 then some (et, String.mk rest) else none

/-- The `validate_syn_id` of `ulid_gen.py`: non-throwing form of `parse_syn_id`. -/
def validate_syn_id (s : String) : Bool :=
  (parse_syn_id s).isSome

/-- Character class `[0-9A-HJKMNP-TV-Z]` of the spec's synthetic-id format
(Crockford base32: digits and uppercase letters without I, L, O, U). -/
def crockfordChar (c : Char) : Bool :=
  (('0' ≤ c && c ≤ '9') || ('A' ≤ c && c ≤ 'H') || c == 'J' || c == 'K' ||
   c == 'M' || c == 'N' || ('P' ≤ c && c ≤ 'T') || ('V' ≤ c && c ≤ 'Z'))

/-- Modelled from the spec's words (for comparison with `parse_syn_id`): the
synthetic-id shape `[A-Z]{2}_[0-9A-HJKMNP-TV-Z]{26}` with a known two-letter
type code — 29 characters total. -/
def synIdSpecMatch (s : String) : Bool :=
  match s.data with
  | c1 :: c2 :: c3 :: rest =>
    c3 == '_' && (codeToType (String.mk [c1, c2])).isSome &&
      rest.length = 26 && rest.all crockfordChar
  | _ => false

/-- Python `str.strip()`: drop whitespace from both ends.  (Lean's own
`String.trim` is not kernel-reducible, so the embedding spells it out.) -/
def pyStrip (s : String) : String :=
  String.mk (((s.data.dropWhile Char.isWhitespace).reverse.dropWhile
    Char.isWhitespace).reverse)

/-- Rational subtraction, spelled out on numerators and denominators so that
it is kernel-computable (`Rat.sub` itself does not reduce); see
`ratSub_eq_sub`. -/
def ratSub (a b : ℚ) : ℚ :=
  mkRat (a.num * b.den - b.num * a.den) (a.den * b.den)

/-- Python `abs` on rationals, kernel-computable; see `ratAbs_eq_abs`. -/
def ratAbs (q : ℚ) : ℚ :=
  if q.num < 0 then mkRat (-q.num) q.den else q

/-! ## registry.py — identifier rows, `add_identifier` and `resolve_identifier` -/

/-- One row of the `identifiers` table. -/
structure IdentifierRow where
  synId : String
  scheme : String
  value : String
  validFrom : ℤ
  validTo : Option ℤ
deriving DecidableEq, Repr

/-- One row of the `entity_registry` table. -/
structure EntityRow where
  synId : String
  type : String
  canonicalName : String
  status : String
deriving DecidableEq, Repr

/-- Error kinds raised by the registry (`ValueError` messages in the code,
the spec's stable taxonomy names). -/
inductive RegistryError where
  | invalidArgument
  | identifierCollision
deriving DecidableEq, Repr

/-- The open rows holding a given `(scheme, value)`: the `SELECT syn_id FROM
identifiers WHERE scheme = ... AND value = ... AND valid_to IS NULL` of
`add_identifier` (the code reads the first with `fetchone`). -/
def openRowsFor (idents : List IdentifierRow) (scheme value : String) :
    List IdentifierRow :=
  idents.filter fun r => decide (r.scheme = scheme ∧ r.value = value ∧ r.validTo = none)

/-- The `INSERT INTO identifiers ... ON CONFLICT (syn_id, scheme, valid_from)
DO NOTHING` of `add_identifier`: append an open row unless a row with the same
key triple already exists. -/
def insertIdentifierRow (idents : List IdentifierRow) (synId scheme value : String)
    (validFrom : ℤ) : List IdentifierRow :=
  if idents.any fun r =>
      decide (r.synId = synId ∧ r.scheme = scheme ∧ r.validFrom = validFrom)
  then idents
  else idents ++ [⟨synId, scheme, value, validFrom, none⟩]

/-- The `add_identifier` of `registry.py`.  Validates the syn id and the value,
fails with a collision when the first open `(scheme, value)` row belongs to a
different entity, and otherwise inserts an open row.  It never closes a prior
open row. -/
def add_identifier (idents : List IdentifierRow) (synId scheme value : String)
    (validFrom : ℤ) : Except RegistryError (List IdentifierRow) :=
  if validate_syn_id synId = false then .error .invalidArgument
  else if pyStrip value = "" then .error .invalidArgument
  else
    match (openRowsFor idents scheme (pyStrip value)).head? with
    | some e =>
      if e.synId ≠ synId then .error .identifierCollision
      else .ok (insertIdentifierRow idents synId scheme (pyStrip value) validFrom)
    | none => .ok (insertIdentifierRow idents synId scheme (pyStrip value) validFrom)

/-- The clause `valid_to IS NULL OR valid_to > asof`. -/
def stillOpenAt (validTo : Option ℤ) (asof : ℤ) : Bool :=
  match validTo with
  | none => true
  | some t => asof < t

/-- The `resolve_identifier` of `registry.py`: the first `identifiers` row (joined
with `entity_registry` on `syn_id`) whose scheme and stripped value match and
whose `[valid_from, valid_to)` interval covers `asof` (`LIMIT 1`). -/
def resolve_identifier (entities : List EntityRow) (idents : List IdentifierRow)
    (scheme value : String) (asof : ℤ) : Option (IdentifierRow × EntityRow) :=
  ((idents.filter fun r =>
      decide (r.scheme = scheme ∧ r.value = pyStrip value ∧ r.validFrom ≤ asof) &&
        stillOpenAt r.validTo asof).filterMap fun r =>
    (entities.find? fun e => e.synId == r.synId).map fun e => (r, e)).head?


/-! ## edges.py — `add_edge` and `get_edges` with SCD2 temporal tracking -/

/-- JSON attribute dicts, modelled as association lists with deep equality. -/
abbrev Attrs := List (String × String)

/-- One row of the `edges` table. -/
structure EdgeRow where
  srcSynId : String
  dstSynId : String
  relType : String
  attrs : Option Attrs
  source : String
  evidence : Option String
  confidence : ℚ
  validFrom : ℤ
  validTo : Option ℤ
  observedAt : ℤ
deriving DecidableEq, Repr

/-- The expression `Jsonb(attrs) if attrs else None` at the INSERT sites of `add_edge`: the
empty dict is falsy in Python, so it is persisted as SQL NULL. -/
def storeAttrs : Option Attrs → Option Attrs
  | none => none
  | some m => if m = [] then none else some m

/-- The open-edge key test of `add_edge`: `src_syn_id = ... AND dst_syn_id =
... AND rel_type = ... AND valid_to IS NULL`. -/
def isOpenEdgeFor (src dst relType : String) (r : EdgeRow) : Bool :=
  decide (r.srcSynId = src ∧ r.dstSynId = dst ∧ r.relType = relType ∧ r.validTo = none)

/-- The significant-change test of `add_edge`, comparing the *stored* open row
against the new arguments: attrs differ, `|Δconfidence| > 0.01`, source
differs, or evidence differs. -/
def significantChange (e : EdgeRow) (attrs : Option Attrs) (source : String)
    (evidence : Option String) (confidence : ℚ) : Bool :=
  decide (e.attrs ≠ attrs) ||
    decide (ratAbs (ratSub e.confidence confidence) > mkRat 1 100) ||
    decide (e.source ≠ source) || decide (e.evidence ≠ evidence)

/-- The `UPDATE edges SET valid_to = %s WHERE (key) AND valid_to IS NULL` of
`add_edge` / `delete_edge`. -/
def closeOpenEdges (edges : List EdgeRow) (src dst relType : String)
    (validTo : ℤ) : List EdgeRow :=
  edges.map fun r =>
    if isOpenEdgeFor src dst relType r then { r with validTo := some validTo } else r

/-- The row inserted by `add_edge` (attrs go through `storeAttrs`). -/
def mkEdgeRow (src dst relType : String) (attrs : Option Attrs) (source : String)
    (evidence : Option String) (confidence : ℚ) (validFrom observedAt : ℤ) : EdgeRow :=
  ⟨src, dst, relType, storeAttrs attrs, source, evidence, confidence,
    validFrom, none, observedAt⟩

/-- Error kind raised by the edge manager (`ValueError` in the code). -/
inductive EdgeError where
  | invalidArgument
deriving DecidableEq, Repr

/-- The `add_edge` of `edges.py`.  After validation: no open edge for the key →
insert open, `(true, false)`; open edge with a significant change → close it
(`valid_to ← valid_from`) and insert a new open row, `(false, true)`; open
edge with no significant change → no write, `(false, false)`. -/
def add_edge (edges : List EdgeRow) (src dst relType source : String)
    (confidence : ℚ) (attrs : Option Attrs) (evidence : Option String)
    (observedAt : ℤ) (validFromOpt : Option ℤ) :
    Except EdgeError (List EdgeRow × Bool × Bool) :=
  if validate_syn_id src = false then .error .invalidArgument
  else if validate_syn_id dst = false then .error .invalidArgument
  else if src = dst then .error .invalidArgument
  else if ¬ (0 ≤ confidence ∧ confidence ≤ 1) then .error .invalidArgument
  else
    let validFrom := validFromOpt.getD observedAt
    match (edges.filter (isOpenEdgeFor src dst relType)).head? with
    | some e =>
      if significantChange e attrs source evidence confidence then
        .ok (closeOpenEdges edges src dst relType validFrom ++
          [mkEdgeRow src dst relType attrs source evidence confidence
            validFrom observedAt], false, true)
      else .ok (edges, false, false)
    | none =>
      .ok (edges ++ [mkEdgeRow src dst relType attrs source evidence confidence
        validFrom observedAt], true, false)

/-- One result row of `get_edges`: the edge columns plus the related entity's
syn id, canonical name and type (LEFT JOIN, hence `Option`). -/
structure EdgeView where
  srcSynId : String
  dstSynId : String
  relType : String
  attrs : Option Attrs
  source : String
  evidence : Option String
  confidence : ℚ
  validFrom : ℤ
  validTo : Option ℤ
  observedAt : ℤ
  relatedSynId : String
  relatedName : Option String
  relatedType : Option String
deriving DecidableEq, Repr

/-- Canonical name of an entity, by primary key (LEFT JOIN lookup). -/
def entityName (entities : List EntityRow) (synId : String) : Option String :=
  (entities.find? fun e => e.synId == synId).map fun e => e.canonicalName

/-- Type of an entity, by primary key (LEFT JOIN lookup). -/
def entityTypeOf (entities : List EntityRow) (synId : String) : Option String :=
  (entities.find? fun e => e.synId == synId).map fun e => e.type

/-- The direction clause of `get_edges`. -/
def directionKeep (direction synId : String) (r : EdgeRow) : Bool :=
  if direction = "out" then r.srcSynId == synId
  else if direction = "in" then r.dstSynId == synId
  else r.srcSynId == synId || r.dstSynId == synId

/-- The temporal clause of `get_edges`: `valid_to IS NULL` when
`active_only`, else `valid_from <= asof AND (valid_to IS NULL OR valid_to >
asof)`. -/
def temporalKeep (activeOnly : Bool) (asof : ℤ) (r : EdgeRow) : Bool :=
  if activeOnly then decide (r.validTo = none)
  else decide (r.validFrom ≤ asof) && stillOpenAt r.validTo asof

/-- The optional `rel_type` filter of `get_edges`. -/
def relTypeKeep (relType : Option String) (r : EdgeRow) : Bool :=
  match relType with
  | none => true
  | some t => r.relType == t

/-- The `related_*` columns of `get_edges` (`CASE WHEN` for direction
`both`). -/
def relatedColumns (entities : List EntityRow) (synId direction : String)
    (r : EdgeRow) : String × Option String × Option String :=
  if direction = "out" then
    (r.dstSynId, entityName entities r.dstSynId, entityTypeOf entities r.dstSynId)
  else if direction = "in" then
    (r.srcSynId, entityName entities r.srcSynId, entityTypeOf entities r.srcSynId)
  else if r.srcSynId = synId then
    (r.dstSynId, entityName entities r.dstSynId, entityTypeOf entities r.dstSynId)
  else
    (r.srcSynId, entityName entities r.srcSynId, entityTypeOf entities r.srcSynId)

/-- The sort key `ORDER BY e.observed_at DESC, e.confidence DESC`. -/
def edgeOrder (a b : EdgeRow) : Prop :=
  b.observedAt < a.observedAt ∨
    (a.observedAt = b.observedAt ∧ b.confidence ≤ a.confidence)

instance : DecidableRel edgeOrder := fun a b =>
  inferInstanceAs (Decidable (b.observedAt < a.observedAt ∨
    (a.observedAt = b.observedAt ∧ b.confidence ≤ a.confidence)))

/-- The `get_edges` of `edges.py`: invalid syn id → empty result; invalid
direction → error; otherwise filter by direction, temporal clause and
optional rel type, join the related entity, order by `observed_at DESC,
confidence DESC`, and paginate with the clamped limit and offset. -/
def get_edges (entities : List EntityRow) (edges : List EdgeRow) (synId : String)
    (direction : String) (relType : Option String) (activeOnly : Bool)
    (asof : ℤ) (limit offset : ℤ) : Except EdgeError (List EdgeView) :=
  if validate_syn_id synId = false then .ok []
  else if ¬ (direction = "out" ∨ direction = "in" ∨ direction = "both") then
    .error .invalidArgument
  else
    let limitC := min (max 1 limit) 1000
    let offsetC := max 0 offset
    let rows := edges.filter fun r =>
      directionKeep direction synId r && temporalKeep activeOnly asof r &&
        relTypeKeep relType r
    let sorted := List.insertionSort edgeOrder rows
    let views := sorted.map fun r =>
      let rel := relatedColumns entities synId direction r
      EdgeView.mk r.srcSynId r.dstSynId r.relType r.attrs r.source r.evidence
        r.confidence r.validFrom r.validTo r.observedAt rel.1 rel.2.1 rel.2.2
    .ok ((views.drop offsetC.toNat).take limitC.toNat)

def acmeC1 : String := "CO_00000000000000000000000000"

def acmeC2 : String := "CO_11111111111111111111111111"

def acmeIdents : List IdentifierRow := [⟨acmeC1, "TICKER", "ACME", 0, none⟩]

def c1Entities : List EntityRow := [⟨acmeC1, "COMPANY", "Acme", "ACTIVE"⟩]

def c1AfterOld : List IdentifierRow := [⟨acmeC1, "TICKER", "OLD", 0, none⟩]

def c1AfterNew : List IdentifierRow :=
  [⟨acmeC1, "TICKER", "OLD", 0, none⟩, ⟨acmeC1, "TICKER", "NEW", 5, none⟩]

/-- Exchange entity for the SCD2 edge-update scenario. -/
def c2Ex : String := "EX_00000000000000000000000000"

def c2Entities : List EntityRow :=
  [⟨acmeC1, "COMPANY", "Acme", "ACTIVE"⟩, ⟨c2Ex, "EXCHANGE", "NYSE", "ACTIVE"⟩]

/-- The edge inserted by the first `add_edge` call of scenario E2. -/
def c2First : EdgeRow := ⟨acmeC1, c2Ex, "LISTED_ON", none, "manual", none, 1, 0, none, 0⟩

/-- The first edge after the SCD2 update closed it (`valid_to = 1`). -/
def c2Closed : EdgeRow := ⟨acmeC1, c2Ex, "LISTED_ON", none, "manual", none, 1, 0, some 1, 0⟩

/-- The open version inserted by the SCD2 update. -/
def c2Open : EdgeRow :=
  ⟨acmeC1, c2Ex, "LISTED_ON", none, "openfigi", none, mkRat 4 5, 1, none, 1⟩

def c2State : List EdgeRow := [c2Closed, c2Open]

/-- The `get_edges` view of the open version. -/
def c2OpenView : EdgeView :=
  ⟨acmeC1, c2Ex, "LISTED_ON", none, "openfigi", none, mkRat 4 5, 1, none, 1, c2Ex,
    some "NYSE", some "EXCHANGE"⟩

/-! ## nlp_linker.py — the rule-based resolver -/

/-- An entity-resolution candidate (`Candidate` of `nlp_linker.py`). -/
structure Candidate where
  synId : String
  canonicalName : String
  entityType : String
  matchedVia : String
  matchedValue : String
  confidence : ℚ
  source : String := "nlp_linker"
deriving DecidableEq, Repr

/-- The constant `CONFIDENCE_THRESHOLD = 0.95` of `NLPLinker` (auto-attach vs quarantine). -/
def CONFIDENCE_THRESHOLD : ℚ := mkRat 95 100

/-- ASCII `[A-Z]`. -/
def isAsciiUpper (c : Char) : Bool := 'A' ≤ c && c ≤ 'Z'

/-- The regex `^[A-Z]{1,5}(\.[A-Z])?$` of `_is_ticker_like`: a maximal
uppercase prefix of length 1–5, optionally followed by a dot and one more
uppercase letter.  (Greedy matching with this single optional group is
equivalent to taking the maximal uppercase prefix.) -/
def tickerShapeMatch (cs : List Char) : Bool :=
  let p := cs.takeWhile isAsciiUpper
  let r := cs.dropWhile isAsciiUpper
  decide (1 ≤ p.length) && decide (p.length ≤ 5) &&
    (match r with
     | [] => true
     | ['.', c] => isAsciiUpper c
     | _ => false)

/-- The `_is_ticker_like` check of `nlp_linker.py`: an emptiness check, a length bound
of 1–6 characters, and the regex match. -/
def isTickerLike (text : String) : Bool :=
  if text = "" then false
  else if text.length < 1 ∨ text.length > 6 then false
  else tickerShapeMatch text.data

/-- Whitespace-run collapsing of `_normalize_text` (`re.sub(r'\s+', ' ', ·)`),
with a flag recording whether the previous character was whitespace. -/
def squeezeWsAux : Bool → List Char → List Char
  | _, [] => []
  | prevWs, c :: cs =>
    if c.isWhitespace then
      if prevWs then squeezeWsAux true cs else ' ' :: squeezeWsAux true cs
    else c :: squeezeWsAux false cs

/-- The `_normalize_text` of `nlp_linker.py`: lowercase, collapse whitespace runs
to single spaces, strip. -/
def normalizeText (s : String) : String :=
  pyStrip (String.mk (squeezeWsAux false (s.data.map Char.toLower)))

/-- The four candidate-generation stages of `resolve`, abstracted over the
database queries (`_find_ticker_candidates`, `_find_alias_candidates`
exact/fuzzy, `_find_canonical_name_candidates`). -/
structure LinkerStages where
  tickerCandidates : String → List Candidate
  aliasExactCandidates : String → List Candidate
  canonicalNameCandidates : String → List Candidate
  aliasFuzzyCandidates : String → List Candidate

/-- A stage tag of the cascade, in source order. -/
inductive Stage where
  | ticker | aliasExact | canonicalName | aliasFuzzy
deriving DecidableEq, Repr

/-- The generator a stage tag stands for. -/
def stageOutput (st : LinkerStages) (s : Stage) (t : String) : List Candidate :=
  match s with
  | .ticker => st.tickerCandidates t
  | .aliasExact => st.aliasExactCandidates t
  | .canonicalName => st.canonicalNameCandidates t
  | .aliasFuzzy => st.aliasFuzzyCandidates t

/-- Position of a stage in the cascade. -/
def stageIndex : Stage → ℕ
  | .ticker => 0
  | .aliasExact => 1
  | .canonicalName => 2
  | .aliasFuzzy => 3

/-- The cascading candidate generation of `resolve`: each stage runs only
while the accumulated candidate list is still empty, and the ticker stage
only when the input is ticker-like.  Returns the candidates together with the
trace of the stages whose generator was invoked. -/
def cascadeCandidates (st : LinkerStages) (t : String) :
    List Candidate × List Stage :=
  let s1 := if isTickerLike t then (st.tickerCandidates t, [Stage.ticker])
            else ([], [])
  if s1.1 ≠ [] then s1
  else
    let a2 := st.aliasExactCandidates t
    if a2 ≠ [] then (a2, s1.2 ++ [Stage.aliasExact])
    else
      let a3 := st.canonicalNameCandidates t
      if a3 ≠ [] then (a3, s1.2 ++ [Stage.aliasExact, Stage.canonicalName])
      else
        (st.aliasFuzzyCandidates t,
          s1.2 ++ [Stage.aliasExact, Stage.canonicalName, Stage.aliasFuzzy])

/-- One step of the dedup of `resolve`: Python dict insertion order — a new
syn id is appended, a higher-confidence duplicate replaces the stored entry
in place. -/
def dedupStep (acc : List Candidate) (c : Candidate) : List Candidate :=
  if acc.any fun d => d.synId == c.synId then
    acc.map fun d =>
      if d.synId == c.synId && decide (d.confidence < c.confidence) then c else d
  else acc ++ [c]

/-- The dedup of `resolve`: keep the highest-confidence candidate per syn id. -/
def dedupBySynId (l : List Candidate) : List Candidate := l.foldl dedupStep []

/-- Sort order of `resolve`: confidence descending.  Python's sort is stable,
as is insertion sort, so they compute the same list. -/
def candOrder (a b : Candidate) : Prop := b.confidence ≤ a.confidence

instance : DecidableRel candOrder := fun a b =>
  inferInstanceAs (Decidable (b.confidence ≤ a.confidence))

instance : IsTotal Candidate candOrder :=
  ⟨fun a b => le_total b.confidence a.confidence⟩

instance : IsTrans Candidate candOrder :=
  ⟨fun _ _ _ hab hbc => le_trans hbc hab⟩

/-- The final step of `resolve`: the head of the sorted list when its
confidence reaches the operating threshold, else no result. -/
def pickBest (sorted : List Candidate) : Option Candidate :=
  match sorted with
  | [] => none
  | best :: _ =>
    if best.confidence ≥ CONFIDENCE_THRESHOLD then some best else none

/-- The `resolve` of `nlp_linker.py` with the evaluated-stage trace: strip the
input, run the cascade, apply the optional entity-type filter, dedup, sort by
confidence descending, and return the head when it reaches the threshold. -/
def resolveWithTrace (st : LinkerStages) (text : String)
    (entityTypeFilter : Option String) :
    (Option Candidate × List Candidate) × List Stage :=
  if pyStrip text = "" then ((none, []), [])
  else
    let t := pyStrip text
    let cands := (cascadeCandidates st t).1
    let tr := (cascadeCandidates st t).2
    let filtered := match entityTypeFilter with
      | some ty => cands.filter fun c => c.entityType == ty
      | none => cands
    let sorted := List.insertionSort candOrder (dedupBySynId filtered)
    ((pickBest sorted, sorted), tr)

/-- The `resolve` of `nlp_linker.py`: `(best_candidate?, all_candidates)`. -/
def resolve (st : LinkerStages) (text : String)
    (entityTypeFilter : Option String) : Option Candidate × List Candidate :=
  (resolveWithTrace st text entityTypeFilter).1

/-- The stages whose generator `resolve` invoked. -/
def stagesEvaluated (st : LinkerStages) (text : String)
    (entityTypeFilter : Option String) : List Stage :=
  (resolveWithTrace st text entityTypeFilter).2

/-- The reason attached to a quarantine record, with its payload data
(the formatted strings of the code carry the same data). -/
inductive QuarantineReason where
  | noCandidates
  | ambiguous (n : ℕ)
  | lowConfidence (best : ℚ)
deriving DecidableEq, Repr

/-- A row of `entity_quarantine`, restricted to the fields the resolver
writes; `contextCandidates` is the `candidates` key of the context JSON
(`none` when absent). -/
structure QuarantineRecord where
  rawIdentifier : String
  scheme : Option String
  contextCandidates : Option (List Candidate)
  reason : QuarantineReason
deriving DecidableEq, Repr

/-- The `quarantine` of `nlp_linker.py`: a non-empty candidate list is embedded
into the context (creating it if absent); an empty or missing list leaves the
context untouched. -/
def quarantine (rawIdentifier : String) (scheme : Option String)
    (contextCandidates : Option (List Candidate)) (reason : QuarantineReason)
    (candidates : Option (List Candidate)) : QuarantineRecord :=
  let ctx := match candidates with
    | some cs => if cs = [] then contextCandidates else some cs
    | none => contextCandidates
  ⟨rawIdentifier, scheme, ctx, reason⟩

/-- The candidate list embedded in a quarantine record's context (`[]` when
the key is absent). -/
def embeddedCandidates (r : QuarantineRecord) : List Candidate :=
  r.contextCandidates.getD []

/-- The `resolve_or_quarantine` of `nlp_linker.py`: a resolved syn id, or a
quarantine record whose reason is no-candidates / ambiguous (top two within
0.1) / low-confidence. -/
def resolve_or_quarantine (st : LinkerStages) (text : String)
    (context : Option (List Candidate)) (entityTypeFilter : Option String) :
    Option String × Option QuarantineRecord :=
  match resolve st text entityTypeFilter with
  | (some best, _) => (some best.synId, none)
  | (none, cands) =>
    let reason := match cands with
      | [] => QuarantineReason.noCandidates
      | c0 :: c1 :: _ =>
        if ratSub c0.confidence c1.confidence < mkRat 1 10 then
          QuarantineReason.ambiguous cands.length
        else QuarantineReason.lowConfidence c0.confidence
      | [c0] => QuarantineReason.lowConfidence c0.confidence
    (none, some (quarantine text none context reason (some cands)))

/-- Constant stage oracles, for concrete scenarios. -/
def constStages (l1 l2 l3 l4 : List Candidate) : LinkerStages :=
  ⟨fun _ => l1, fun _ => l2, fun _ => l3, fun _ => l4⟩

/-- An exact-ticker candidate for Apple (scenario E3). -/
def cApple : Candidate :=
  ⟨"CO_22222222222222222222222222", "Apple Inc.", "COMPANY", "TICKER",
    "AAPL", 1, "nlp_linker"⟩

/-- A person candidate used to show the type filter does not fall through. -/
def cPerson : Candidate :=
  ⟨"PE_22222222222222222222222222", "Apple Person", "PERSON", "ALIAS",
    "aapl", 1, "nlp_linker"⟩

/-! ## cache.py — TTL jitter of `EntityCache.set` -/

/-- The possible outcomes of Python's `random.randint(a, b)`: the *inclusive*
integer range `[a, b]`. -/
def randintDraws (a b : ℤ) : List ℤ :=
  (List.range (b - a + 1).toNat).map fun (i : ℕ) => a + (i : ℤ)

/-- The expiry applied by `EntityCache.set`: `ttl + jitter`, the jitter drawn
by `random.randint(0, 120)`. -/
def ttlWithJitter (ttl j : ℤ) : ℤ := ttl + j

/-- Security entity id for the empty-attrs `add_edge` scenario. -/
def c3Dst : String := "SE_00000000000000000000000000"

/-- The edge row written by `add_edge` with `attrs = {}` (stored as NULL). -/
def c3Row : EdgeRow := ⟨acmeC1, c3Dst, "LISTED_ON", none, "manual", none, 1, 0, none, 0⟩

/-- The same row after the second call closed it (`valid_to ← valid_from = 0`). -/
def c3RowClosed : EdgeRow :=
  ⟨acmeC1, c3Dst, "LISTED_ON", none, "manual", none, 1, 0, some 0, 0⟩

theorem splitOnce_eq_some (c : Char) (l a b : List Char) :
    splitOnce c l = some (a, b) ↔ l = a ++ c :: b ∧ c ∉ a := by
  induction l generalizing a with
  | nil => simp [splitOnce]
  | cons x xs ih =>
    simp only [splitOnce]
    by_cases hx : x = c
    · subst hx
      simp only [if_pos rfl]
      constructor
      · rintro h
        cases h
        simp
      · rintro ⟨h1, h2⟩
        cases a with
        | nil => simp_all
        | cons y ys =>
          simp only [List.cons_append, List.cons.injEq] at h1
          simp [h1.1] at h2
    · rw [if_neg hx]
      simp only [Option.map_eq_some']
      constructor
      · rintro ⟨⟨a', b'⟩, hp, he⟩
        injection he with ha hb
        subst hb
        subst ha
        obtain ⟨h1, h2⟩ := (ih a').mp hp
        refine ⟨by simp [h1], ?_⟩
        simp only [List.mem_cons, not_or]
        exact ⟨fun hc => hx hc.symm, h2⟩
      · rintro ⟨h1, h2⟩
        cases a with
        | nil =>
          simp only [List.nil_append, List.cons.injEq] at h1
          exact absurd h1.1 hx
        | cons y ys =>
          simp only [List.cons_append, List.cons.injEq] at h1
          simp only [List.mem_cons, not_or] at h2
          exact ⟨(ys, b), (ih ys).mpr ⟨h1.2, h2.2⟩, by simp [h1.1]⟩

theorem codeToType_typeCode (et : EntityType) : codeToType (typeCode et) = some et := by
  cases et <;> rfl

theorem typeCode_no_underscore (et : EntityType) : '_' ∉ (typeCode et).data := by
  cases et <;> decide

theorem codeToType_sound (s : String) (et : EntityType)
    (h : codeToType s = some et) : s = typeCode et := by
  unfold codeToType at h
  split_ifs at h with h1 h2 h3 h4 h5 h6 h7 h8 h9 h10 <;> cases h <;> assumption

theorem data_append_cons (a tail : String) :
    (a ++ "_" ++ tail).data = a.data ++ '_' :: tail.data := by
  simp [String.data_append]

/-- Characterization of the parser: it succeeds exactly on
`typeCode et ++ "_" ++ tail` with `tail` of length 26 — with no constraint on
the characters of `tail`. -/
theorem parse_syn_id_eq_some (s : String) (et : EntityType) (tail : String) :
    parse_syn_id s = some (et, tail) ↔
      s = typeCode et ++ "_" ++ tail ∧ tail.length = 26 := by
  constructor
  · intro h
    unfold parse_syn_id at h
    by_cases hs : s = ""
    · rw [if_pos hs] at h
      exact absurd h (by simp)
    · rw [if_neg hs] at h
      cases hsp : splitOnce '_' s.data with
      | none =>
        rw [hsp] at h
        exact absurd h (by simp)
      | some p =>
        obtain ⟨pre, rest⟩ := p
        rw [hsp] at h
        dsimp only at h
        cases hct : codeToType (String.mk pre) with
        | none =>
          rw [hct] at h
          exact absurd h (by simp)
        | some et' =>
          rw [hct] at h
          dsimp only at h
          split_ifs at h with hlen
          · obtain ⟨rfl, rfl⟩ : et' = et ∧ String.mk rest = tail := by
              simpa [Prod.ext_iff] using h
            obtain ⟨hsdata, -⟩ := (splitOnce_eq_some '_' s.data pre rest).mp hsp
            have hpre : String.mk pre = typeCode et' := codeToType_sound _ _ hct
            have hpd : pre = (typeCode et').data := by
              have := congrArg String.data hpre
              simpa using this
            refine ⟨?_, hlen⟩
            apply String.ext
            rw [data_append_cons, hsdata, hpd]
  · rintro ⟨rfl, hlen⟩
    have hs : (typeCode et ++ "_" ++ tail) ≠ "" := by
      intro hemp
      have h0 := congrArg String.data hemp
      rw [data_append_cons] at h0
      simp at h0
    unfold parse_syn_id
    rw [if_neg hs, data_append_cons,
      (splitOnce_eq_some '_' _ (typeCode et).data tail.data).mpr
        ⟨rfl, typeCode_no_underscore et⟩]
    dsimp only
    rw [show String.mk (typeCode et).data = typeCode et from rfl, codeToType_typeCode]
    dsimp only
    rw [if_pos (show tail.data.length = 26 from hlen)]

theorem validate_syn_id_iff (s : String) :
    validate_syn_id s = true ↔
      ∃ et tail, s = typeCode et ++ "_" ++ tail ∧ tail.length = 26 := by
  unfold validate_syn_id
  rw [Option.isSome_iff_exists]
  constructor
  · rintro ⟨⟨et, tail⟩, hp⟩
    exact ⟨et, tail, (parse_syn_id_eq_some s et tail).mp hp⟩
  · rintro ⟨et, tail, h⟩
    exact ⟨(et, tail), (parse_syn_id_eq_some s et tail).mpr h⟩

/-- Every string of the spec's format is accepted by the code's parser
(the converse fails: the parser ignores the character class of the tail). -/
theorem synIdSpecMatch_implies_validate (s : String)
    (h : synIdSpecMatch s = true) : validate_syn_id s = true := by
  rw [validate_syn_id_iff]
  unfold synIdSpecMatch at h
  cases hl : s.data with
  | nil => rw [hl] at h; exact absurd h (by simp)
  | cons c1 l1 =>
    cases l1 with
    | nil => rw [hl] at h; exact absurd h (by simp)
    | cons c2 l2 =>
      cases l2 with
      | nil => rw [hl] at h; exact absurd h (by simp)
      | cons c3 rest =>
        rw [hl] at h
        simp only [Bool.and_eq_true, beq_iff_eq, decide_eq_true_eq] at h
        obtain ⟨⟨⟨hc3, hcode⟩, hlen⟩, -⟩ := h
        subst hc3
        obtain ⟨et, hsome⟩ := Option.isSome_iff_exists.mp hcode
        have hpre : String.mk [c1, c2] = typeCode et := codeToType_sound _ _ hsome
        have hpd : [c1, c2] = (typeCode et).data := by
          have := congrArg String.data hpre
          simpa using this
        refine ⟨et, String.mk rest, ?_, ?_⟩
        · apply String.ext
          rw [data_append_cons, hl, ← hpd]
          rfl
        · exact hlen

theorem mem_openRowsFor {idents : List IdentifierRow} {scheme value : String}
    {r : IdentifierRow} :
    r ∈ openRowsFor idents scheme value ↔
      r ∈ idents ∧ r.scheme = scheme ∧ r.value = value ∧ r.validTo = none := by
  unfold openRowsFor
  rw [List.mem_filter]
  simp only [decide_eq_true_eq]

theorem insertIdentifierRow_dup {idents : List IdentifierRow}
    {synId scheme value : String} {validFrom : ℤ}
    (h : ∃ r ∈ idents, r.synId = synId ∧ r.scheme = scheme ∧ r.validFrom = validFrom) :
    insertIdentifierRow idents synId scheme value validFrom = idents := by
  unfold insertIdentifierRow
  obtain ⟨r, hr, hp⟩ := h
  have hc : (idents.any fun r =>
      decide (r.synId = synId ∧ r.scheme = scheme ∧ r.validFrom = validFrom)) = true :=
    List.any_eq_true.mpr ⟨r, hr, decide_eq_true hp⟩
  rw [if_pos hc]

theorem insertIdentifierRow_new {idents : List IdentifierRow}
    {synId scheme value : String} {validFrom : ℤ}
    (h : ¬ ∃ r ∈ idents, r.synId = synId ∧ r.scheme = scheme ∧ r.validFrom = validFrom) :
    insertIdentifierRow idents synId scheme value validFrom =
      idents ++ [⟨synId, scheme, value, validFrom, none⟩] := by
  unfold insertIdentifierRow
  have hc : ¬ ((idents.any fun r =>
      decide (r.synId = synId ∧ r.scheme = scheme ∧ r.validFrom = validFrom)) = true) := by
    rw [List.any_eq_true]
    rintro ⟨r, hr, hp⟩
    exact h ⟨r, hr, of_decide_eq_true hp⟩
  rw [if_neg hc]

theorem add_identifier_eq_none (idents : List IdentifierRow)
    (synId scheme value : String) (validFrom : ℤ)
    (h1 : validate_syn_id synId = true) (h2 : pyStrip value ≠ "")
    (hE : (openRowsFor idents scheme (pyStrip value)).head? = none) :
    add_identifier idents synId scheme value validFrom =
      .ok (insertIdentifierRow idents synId scheme (pyStrip value) validFrom) := by
  unfold add_identifier
  rw [if_neg (by simp [h1]), if_neg h2, hE]

theorem add_identifier_eq_some (idents : List IdentifierRow)
    (synId scheme value : String) (validFrom : ℤ) (e : IdentifierRow)
    (h1 : validate_syn_id synId = true) (h2 : pyStrip value ≠ "")
    (hE : (openRowsFor idents scheme (pyStrip value)).head? = some e) :
    add_identifier idents synId scheme value validFrom =
      if e.synId ≠ synId then .error .identifierCollision
      else .ok (insertIdentifierRow idents synId scheme (pyStrip value) validFrom) := by
  unfold add_identifier
  rw [if_neg (by simp [h1]), if_neg h2, hE]

/-- C4: for well-formed arguments, `add_identifier` fails with
`IdentifierCollision` exactly when an open row with the same `(scheme, value)`
is owned by a different syn id (under the spec's uniqueness invariant — at
most one open row per `(scheme, value)`); otherwise it succeeds, inserting an
open row, and a call whose `(syn_id, scheme, valid_from)` duplicates an
existing row is silently ignored rather than an error. -/
theorem add_identifier_collision_iff
    (idents : List IdentifierRow) (synId scheme value : String) (validFrom : ℤ)
    (h1 : validate_syn_id synId = true)
    (h2 : pyStrip value ≠ "")
    (huniq : ∀ r1 ∈ openRowsFor idents scheme (pyStrip value),
      ∀ r2 ∈ openRowsFor idents scheme (pyStrip value), r1.synId = r2.synId) :
    (add_identifier idents synId scheme value validFrom = .error .identifierCollision ↔
      ∃ r ∈ idents, r.scheme = scheme ∧ r.value = pyStrip value ∧ r.validTo = none ∧
        r.synId ≠ synId) ∧
    add_identifier idents synId scheme value validFrom ≠ .error .invalidArgument ∧
    (∀ res, add_identifier idents synId scheme value validFrom = .ok res →
      ((∃ r ∈ idents, r.synId = synId ∧ r.scheme = scheme ∧ r.validFrom = validFrom) →
          res = idents) ∧
      ((¬ ∃ r ∈ idents, r.synId = synId ∧ r.scheme = scheme ∧ r.validFrom = validFrom) →
          res = idents ++ [⟨synId, scheme, pyStrip value, validFrom, none⟩])) := by
  cases hE : (openRowsFor idents scheme (pyStrip value)).head? with
  | none =>
    have hbase := add_identifier_eq_none idents synId scheme value validFrom h1 h2 hE
    have hnil : openRowsFor idents scheme (pyStrip value) = [] :=
      List.head?_eq_none_iff.mp hE
    have hno : ¬ ∃ r ∈ idents, r.scheme = scheme ∧ r.value = pyStrip value ∧
        r.validTo = none ∧ r.synId ≠ synId := by
      rintro ⟨r, hr, ha, hb, hc, -⟩
      have hmem : r ∈ openRowsFor idents scheme (pyStrip value) :=
        mem_openRowsFor.mpr ⟨hr, ha, hb, hc⟩
      rw [hnil] at hmem
      exact absurd hmem (List.not_mem_nil r)
    refine ⟨⟨fun h => absurd (hbase ▸ h) (by simp), fun h => absurd h hno⟩, ?_, ?_⟩
    · rw [hbase]; simp
    · intro res hres
      rw [hbase] at hres
      injection hres with hres
      subst hres
      exact ⟨fun h => insertIdentifierRow_dup h, fun h => insertIdentifierRow_new h⟩
  | some e =>
    have hbase := add_identifier_eq_some idents synId scheme value validFrom e h1 h2 hE
    obtain ⟨l', hl'⟩ := List.head?_eq_some_iff.mp hE
    have heMem : e ∈ openRowsFor idents scheme (pyStrip value) := by
      rw [hl']; exact List.mem_cons_self _ _
    obtain ⟨heIn, hesch, heval, heopen⟩ := mem_openRowsFor.mp heMem
    by_cases heq : e.synId = synId
    · rw [if_neg (by simp [heq])] at hbase
      refine ⟨⟨fun h => absurd (hbase ▸ h) (by simp), ?_⟩, ?_, ?_⟩
      · rintro ⟨r, hr, ha, hb, hc, hd⟩
        have hrMem : r ∈ openRowsFor idents scheme (pyStrip value) :=
          mem_openRowsFor.mpr ⟨hr, ha, hb, hc⟩
        exact absurd ((huniq r hrMem e heMem).trans heq) hd
      · rw [hbase]; simp
      · intro res hres
        rw [hbase] at hres
        injection hres with hres
        subst hres
        exact ⟨fun h => insertIdentifierRow_dup h, fun h => insertIdentifierRow_new h⟩
    · rw [if_pos heq] at hbase
      refine ⟨⟨fun _ => ⟨e, heIn, hesch, heval, heopen, heq⟩, fun _ => hbase⟩, ?_, ?_⟩
      · rw [hbase]; simp
      · intro res hres
        rw [hbase] at hres
        exact absurd hres (by simp)

theorem add_identifier_collision_iff_witness :
    add_identifier acmeIdents acmeC2 "TICKER" "ACME" 1 =
      .error .identifierCollision :=
  (add_identifier_collision_iff acmeIdents acmeC2 "TICKER" "ACME" 1
      (by decide) (by decide) (by decide)).1.mpr
    ⟨⟨acmeC1, "TICKER", "ACME", 0, none⟩, by decide, by decide, by decide,
      by decide, by decide⟩

/-- C1 (counterexample): after `add_identifier(C1, TICKER, "OLD", T0 = 0)`
and `add_identifier(C1, TICKER, "NEW", T1 = 5)`, the prior open version is
*not* closed (both rows still have `valid_to = null`), and
`resolve_identifier(TICKER, "OLD", asof = 7)` with `7 > T1` still returns
`C1` rather than no row — refuting the claimed close-then-insert behaviour. -/
theorem c1_close_then_insert_counterexample :
    add_identifier [] acmeC1 "TICKER" "OLD" 0 = .ok c1AfterOld ∧
    add_identifier c1AfterOld acmeC1 "TICKER" "NEW" 5 = .ok c1AfterNew ∧
    (c1AfterNew.map fun r => r.validTo) = [none, none] ∧
    (resolve_identifier c1Entities c1AfterNew "TICKER" "OLD" 7).map
      (fun p => p.1.synId) = some acmeC1 := by
  refine ⟨rfl, rfl, by decide, by decide⟩

/-- C1 (amended): `add_identifier` never closes the prior open version —
it only inserts a new open row after the collision check on the *new* value.
Hence after the two calls of the scenario, `resolve_identifier(TICKER, "OLD",
asof)` returns `C1` for *every* `asof ≥ T0`, including every `asof` after
`T1`; it never becomes `NotFound`. -/
theorem c1_old_identifier_stays_resolvable (asof : ℤ) (h : 0 ≤ asof) :
    (resolve_identifier c1Entities c1AfterNew "TICKER" "OLD" asof).map
      (fun p => p.1.synId) = some acmeC1 := by
  have htrim : pyStrip "OLD" = "OLD" := by decide
  simp [resolve_identifier, c1Entities, c1AfterNew, stillOpenAt, htrim, h, acmeC1]

theorem c1_old_identifier_stays_resolvable_witness :
    (resolve_identifier c1Entities c1AfterNew "TICKER" "OLD" 7).map
      (fun p => p.1.synId) = some acmeC1 :=
  c1_old_identifier_stays_resolvable 7 (by decide)

/-- C8 (counterexample): the parser does not check the character class of
the 26-character tail: `"CO_aaaaaaaaaaaaaaaaaaaaaaaaaa"` is accepted by
`validate_syn_id` although it does not match the spec's
`[A-Z]{2}_[0-9A-HJKMNP-TV-Z]{26}` format. -/
theorem c8_charset_counterexample :
    validate_syn_id "CO_aaaaaaaaaaaaaaaaaaaaaaaaaa" = true ∧
    synIdSpecMatch "CO_aaaaaaaaaaaaaaaaaaaaaaaaaa" = false := by
  refine ⟨by decide, by decide⟩

/-- C8 (amended): `parse` succeeds exactly when the string is a known
two-letter type code, an underscore, and *any* 26-character tail — the
Crockford character class of the tail is not checked; every other string
fails with `InvalidFormat`; `validate` returns true exactly when `parse`
succeeds; and every string matching the spec's full format is accepted. -/
theorem c8_parse_validate_amended (s : String) :
    (validate_syn_id s = true ↔
      ∃ et tail, s = typeCode et ++ "_" ++ tail ∧ tail.length = 26) ∧
    (validate_syn_id s = true ↔ (parse_syn_id s).isSome = true) ∧
    (synIdSpecMatch s = true → validate_syn_id s = true) :=
  ⟨validate_syn_id_iff s, Iff.rfl, synIdSpecMatch_implies_validate s⟩

theorem c8_parse_validate_amended_witness :
    validate_syn_id "CO_0123456789ABCDEFGHJKMNPQRS" = true :=
  (c8_parse_validate_amended "CO_0123456789ABCDEFGHJKMNPQRS").2.2 (by decide)

theorem storeAttrs_eq_of_ne_empty {attrs : Option Attrs} (h : attrs ≠ some []) :
    storeAttrs attrs = attrs := by
  cases attrs with
  | none => rfl
  | some m =>
    cases m with
    | nil => exact absurd rfl h
    | cons a l => simp [storeAttrs]

theorem isOpenEdgeFor_mkEdgeRow (src dst relType : String) (attrs : Option Attrs)
    (source : String) (evidence : Option String) (confidence : ℚ)
    (validFrom observedAt : ℤ) :
    isOpenEdgeFor src dst relType
      (mkEdgeRow src dst relType attrs source evidence confidence
        validFrom observedAt) = true := by
  simp [isOpenEdgeFor, mkEdgeRow]

theorem significantChange_mkEdgeRow_self (src dst relType source : String)
    (confidence : ℚ) (attrs : Option Attrs) (evidence : Option String)
    (validFrom observedAt : ℤ) (h : attrs ≠ some []) :
    significantChange
      (mkEdgeRow src dst relType attrs source evidence confidence
        validFrom observedAt) attrs source evidence confidence = false := by
  unfold significantChange mkEdgeRow
  have hsub : ratSub confidence confidence = 0 := by
    unfold ratSub
    rw [sub_self, Rat.zero_mkRat]
  simp [storeAttrs_eq_of_ne_empty h, hsub, ratAbs]

theorem filter_closeOpenEdges (edges : List EdgeRow) (src dst relType : String)
    (t : ℤ) :
    (closeOpenEdges edges src dst relType t).filter
      (isOpenEdgeFor src dst relType) = [] := by
  induction edges with
  | nil => rfl
  | cons r rs ih =>
    unfold closeOpenEdges at ih ⊢
    rw [List.map_cons]
    by_cases h : isOpenEdgeFor src dst relType r = true
    · rw [if_pos h, List.filter_cons]
      have hclosed : isOpenEdgeFor src dst relType { r with validTo := some t } = false := by
        simp [isOpenEdgeFor]
      simp [hclosed, ih]
    · rw [if_neg h, List.filter_cons]
      simp only [Bool.not_eq_true] at h
      simp [h, ih]

theorem add_edge_eq_none (edges : List EdgeRow) (src dst relType source : String)
    (confidence : ℚ) (attrs : Option Attrs) (evidence : Option String)
    (observedAt : ℤ) (validFromOpt : Option ℤ)
    (h1 : validate_syn_id src = true) (h2 : validate_syn_id dst = true)
    (h3 : src ≠ dst) (h4 : 0 ≤ confidence) (h5 : confidence ≤ 1)
    (hE : (edges.filter (isOpenEdgeFor src dst relType)).head? = none) :
    add_edge edges src dst relType source confidence attrs evidence observedAt
        validFromOpt =
      .ok (edges ++ [mkEdgeRow src dst relType attrs source evidence confidence
        (validFromOpt.getD observedAt) observedAt], true, false) := by
  unfold add_edge
  rw [if_neg (by simp [h1]), if_neg (by simp [h2]), if_neg h3,
    if_neg (by simp [h4, h5]), hE]

theorem add_edge_eq_some (edges : List EdgeRow) (src dst relType source : String)
    (confidence : ℚ) (attrs : Option Attrs) (evidence : Option String)
    (observedAt : ℤ) (validFromOpt : Option ℤ) (e : EdgeRow)
    (h1 : validate_syn_id src = true) (h2 : validate_syn_id dst = true)
    (h3 : src ≠ dst) (h4 : 0 ≤ confidence) (h5 : confidence ≤ 1)
    (hE : (edges.filter (isOpenEdgeFor src dst relType)).head? = some e) :
    add_edge edges src dst relType source confidence attrs evidence observedAt
        validFromOpt =
      if significantChange e attrs source evidence confidence then
        .ok (closeOpenEdges edges src dst relType (validFromOpt.getD observedAt) ++
          [mkEdgeRow src dst relType attrs source evidence confidence
            (validFromOpt.getD observedAt) observedAt], false, true)
      else .ok (edges, false, false) := by
  unfold add_edge
  rw [if_neg (by simp [h1]), if_neg (by simp [h2]), if_neg h3,
    if_neg (by simp [h4, h5]), hE]

/-- C3 (amended): for well-formed arguments `add_edge` behaves exactly as
claimed on each branch — no open edge: insert, `(true, false)`; open edge with
significant change (as detected against the *stored* row): close-and-insert,
`(false, true)`; otherwise no write, `(false, false)` — and a second call with
arguments identical to the first returns `(false, false)` with no new row
*provided* `attrs` is not the empty dict.  (The empty dict is stored as NULL,
so a second identical call sees a spurious attrs change; see the
counterexample.) -/
theorem add_edge_scd2_branches (edges : List EdgeRow)
    (src dst relType source : String) (confidence : ℚ) (attrs : Option Attrs)
    (evidence : Option String) (observedAt : ℤ) (validFromOpt : Option ℤ)
    (h1 : validate_syn_id src = true) (h2 : validate_syn_id dst = true)
    (h3 : src ≠ dst) (h4 : 0 ≤ confidence) (h5 : confidence ≤ 1) :
    ((edges.filter (isOpenEdgeFor src dst relType)).head? = none →
      add_edge edges src dst relType source confidence attrs evidence observedAt
          validFromOpt =
        .ok (edges ++ [mkEdgeRow src dst relType attrs source evidence confidence
          (validFromOpt.getD observedAt) observedAt], true, false)) ∧
    (∀ e, (edges.filter (isOpenEdgeFor src dst relType)).head? = some e →
      significantChange e attrs source evidence confidence = true →
      add_edge edges src dst relType source confidence attrs evidence observedAt
          validFromOpt =
        .ok (closeOpenEdges edges src dst relType (validFromOpt.getD observedAt) ++
          [mkEdgeRow src dst relType attrs source evidence confidence
            (validFromOpt.getD observedAt) observedAt], false, true)) ∧
    (∀ e, (edges.filter (isOpenEdgeFor src dst relType)).head? = some e →
      significantChange e attrs source evidence confidence = false →
      add_edge edges src dst relType source confidence attrs evidence observedAt
          validFromOpt = .ok (edges, false, false)) ∧
    (attrs ≠ some [] → ∀ s1 i u,
      add_edge edges src dst relType source confidence attrs evidence observedAt
          validFromOpt = .ok (s1, i, u) →
      add_edge s1 src dst relType source confidence attrs evidence observedAt
          validFromOpt = .ok (s1, false, false)) := by
  refine ⟨?_, ?_, ?_, ?_⟩
  · intro hE
    exact add_edge_eq_none edges src dst relType source confidence attrs evidence
      observedAt validFromOpt h1 h2 h3 h4 h5 hE
  · intro e hE hsig
    rw [add_edge_eq_some edges src dst relType source confidence attrs evidence
      observedAt validFromOpt e h1 h2 h3 h4 h5 hE, if_pos hsig]
  · intro e hE hsig
    rw [add_edge_eq_some edges src dst relType source confidence attrs evidence
      observedAt validFromOpt e h1 h2 h3 h4 h5 hE, if_neg (by simp [hsig])]
  · intro hne s1 i u hfirst
    have hsecond : s1.filter (isOpenEdgeFor src dst relType) =
        [mkEdgeRow src dst relType attrs source evidence confidence
          (validFromOpt.getD observedAt) observedAt] ∨ s1 = edges := by
      cases hE : (edges.filter (isOpenEdgeFor src dst relType)).head? with
      | none =>
        rw [add_edge_eq_none edges src dst relType source confidence attrs evidence
          observedAt validFromOpt h1 h2 h3 h4 h5 hE] at hfirst
        injection hfirst with hf
        injection hf with hs hiu
        subst hs
        left
        rw [List.filter_append, List.head?_eq_none_iff.mp hE]
        simp [isOpenEdgeFor_mkEdgeRow]
      | some e =>
        rw [add_edge_eq_some edges src dst relType source confidence attrs evidence
          observedAt validFromOpt e h1 h2 h3 h4 h5 hE] at hfirst
        by_cases hsig : significantChange e attrs source evidence confidence = true
        · rw [if_pos hsig] at hfirst
          injection hfirst with hf
          injection hf with hs hiu
          subst hs
          left
          rw [List.filter_append, filter_closeOpenEdges]
          simp [isOpenEdgeFor_mkEdgeRow]
        · rw [if_neg hsig] at hfirst
          injection hfirst with hf
          injection hf with hs hiu
          subst hs
          right
          rfl
    cases hsecond with
    | inl hfil =>
      have hE2 : (s1.filter (isOpenEdgeFor src dst relType)).head? =
          some (mkEdgeRow src dst relType attrs source evidence confidence
            (validFromOpt.getD observedAt) observedAt) := by
        rw [hfil]; rfl
      rw [add_edge_eq_some s1 src dst relType source confidence attrs evidence
        observedAt validFromOpt _ h1 h2 h3 h4 h5 hE2,
        if_neg (by simp [significantChange_mkEdgeRow_self src dst relType source
          confidence attrs evidence (validFromOpt.getD observedAt) observedAt hne])]
    | inr hs1 =>
      subst hs1
      cases hE : (s1.filter (isOpenEdgeFor src dst relType)).head? with
      | none =>
        rw [add_edge_eq_none s1 src dst relType source confidence attrs evidence
          observedAt validFromOpt h1 h2 h3 h4 h5 hE] at hfirst
        injection hfirst with hf
        injection hf with hs hiu
        -- first call inserted, so the no-change branch cannot also have been
        -- taken: derive the second call's result directly from the insert case
        -- being impossible here: the state grew, contradiction with s1 = edges.
        exact absurd (congrArg List.length hs) (by simp)
      | some e =>
        have hbase := add_edge_eq_some s1 src dst relType source confidence attrs
          evidence observedAt validFromOpt e h1 h2 h3 h4 h5 hE
        rw [hbase] at hfirst
        by_cases hsig : significantChange e attrs source evidence confidence = true
        · rw [if_pos hsig] at hfirst
          injection hfirst with hf
          injection hf with hs hiu
          exact absurd (congrArg List.length hs) (by simp [closeOpenEdges])
        · rw [if_neg hsig] at hbase
          exact hbase

/-- C3 (counterexample): with `attrs = {}` (the empty dict), the row is
stored with NULL attrs, so a *second call with arguments identical to the
first* sees `NULL ≠ {}` as a significant change: it returns `(false, true)` —
not `(false, false)` — and writes a new row (two rows total). -/
theorem c3_empty_attrs_counterexample :
    add_edge [] acmeC1 c3Dst "LISTED_ON" "manual" 1 (some []) none 0 none =
      .ok ([c3Row], true, false) ∧
    add_edge [c3Row] acmeC1 c3Dst "LISTED_ON" "manual" 1 (some []) none 0 none =
      .ok ([c3RowClosed, c3Row], false, true) :=
  ⟨rfl, rfl⟩

theorem add_edge_scd2_branches_witness :
    add_edge [] acmeC1 c3Dst "LISTED_ON" "manual" 1 none none 0 none =
      .ok ([mkEdgeRow acmeC1 c3Dst "LISTED_ON" none "manual" none 1 0 0],
        true, false) :=
  (add_edge_scd2_branches [] acmeC1 c3Dst "LISTED_ON" "manual" 1 none none 0 none
    (by decide) (by decide) (by decide) (by decide) (by decide)).1 rfl

/-- C2 (counterexample): scenario E2 — after the SCD2 edge update,
`get_edges(out, active_only=true)` returns exactly the one open row with
confidence 0.8, but `get_edges(out, active_only=false)` with (default) `asof`
after the update *also* returns only that one row, not two: the `active_only
= false` query is an as-of window, and the closed version's interval no
longer covers `asof`. -/
theorem c2_history_counterexample :
    add_edge [] acmeC1 c2Ex "LISTED_ON" "manual" 1 none none 0 none =
      .ok ([c2First], true, false) ∧
    add_edge [c2First] acmeC1 c2Ex "LISTED_ON" "openfigi" (mkRat 4 5) none none 1 none =
      .ok (c2State, false, true) ∧
    get_edges c2Entities c2State acmeC1 "out" none true 2 100 0 =
      .ok [c2OpenView] ∧
    get_edges c2Entities c2State acmeC1 "out" none false 2 100 0 =
      .ok [c2OpenView] :=
  ⟨rfl, rfl, rfl, rfl⟩

/-- C2 (amended): after the SCD2 update, `get_edges(out, active_only =
true)` returns exactly the one open row (confidence 0.8); `get_edges(out,
active_only = false, asof)` returns exactly the rows whose `[valid_from,
valid_to)` interval covers `asof` — for every `asof` at or after the update
time (in particular the default `now`) that is again just the open row.
Full history *is* preserved in the table: both versions remain stored. -/
theorem c2_get_edges_asof_amended (asof : ℤ) (h : 1 ≤ asof) :
    get_edges c2Entities c2State acmeC1 "out" none true asof 100 0 =
      .ok [c2OpenView] ∧
    get_edges c2Entities c2State acmeC1 "out" none false asof 100 0 =
      .ok [c2OpenView] ∧
    c2Closed ∈ c2State ∧ c2Open ∈ c2State ∧ c2State.length = 2 := by
  have hnlt : ¬ (asof < 1) := by omega
  have hle0 : (0 : ℤ) ≤ asof := by omega
  refine ⟨rfl, ?_, by decide, by decide, rfl⟩
  have hfilter : c2State.filter (fun r =>
      directionKeep "out" acmeC1 r && temporalKeep false asof r &&
        relTypeKeep none r) = [c2Open] := by
    have k1 : (directionKeep "out" acmeC1 c2Closed && temporalKeep false asof c2Closed &&
        relTypeKeep none c2Closed) = false := by
      simp [directionKeep, temporalKeep, relTypeKeep, stillOpenAt, c2Closed, hnlt]
    have k2 : (directionKeep "out" acmeC1 c2Open && temporalKeep false asof c2Open &&
        relTypeKeep none c2Open) = true := by
      simp [directionKeep, temporalKeep, relTypeKeep, stillOpenAt, c2Open, h, hle0,
        acmeC1, c2Ex]
    simp [c2State, List.filter_cons, k1, k2]
  unfold get_edges
  rw [if_neg (by decide), if_neg (by decide)]
  dsimp only
  rw [hfilter]
  rfl

theorem c2_get_edges_asof_amended_witness :
    get_edges c2Entities c2State acmeC1 "out" none false 2 100 0 =
      .ok [c2OpenView] :=
  (c2_get_edges_asof_amended 2 (by decide)).2.1

theorem ratSub_eq_sub (a b : ℚ) : ratSub a b = a - b := by
  unfold ratSub
  conv_rhs => rw [← Rat.divInt_self a, ← Rat.divInt_self b]
  rw [Rat.divInt_sub_divInt _ _
    (Int.natCast_ne_zero.mpr a.den_nz) (Int.natCast_ne_zero.mpr b.den_nz)]
  rw [Rat.mkRat_eq_divInt]
  norm_cast

theorem ratAbs_eq_abs (q : ℚ) : ratAbs q = |q| := by
  unfold ratAbs
  split_ifs with h
  · have hneg : -q = mkRat (-q.num) q.den := by
      conv_lhs => rw [← Rat.mkRat_self q]
      rw [Rat.neg_mkRat]
    rw [abs_of_neg (Rat.num_neg.mp h), hneg]
  · rw [abs_of_nonneg (Rat.num_nonneg.mp (le_of_not_lt h))]

/-- C9 (counterexample): `random.randint(0, 120)` is inclusive of both
ends, so the draw `j = 120` is possible, violating the claimed half-open
range `[0, 120)`. -/
theorem c9_jitter_counterexample :
    (120 : ℤ) ∈ randintDraws 0 120 ∧ ¬ ((120 : ℤ) < 120) := by
  refine ⟨by decide, by decide⟩

/-- C9 (amended): every possible draw `j` of `random.randint(0, 120)`
satisfies `0 ≤ j ≤ 120` — the *closed* interval — and the expiry applied by
`set` is `ttl + j`, hence between `ttl` and `ttl + 120` inclusive. -/
theorem c9_jitter_amended (ttl j : ℤ) (h : j ∈ randintDraws 0 120) :
    0 ≤ j ∧ j ≤ 120 ∧ ttl ≤ ttlWithJitter ttl j ∧
      ttlWithJitter ttl j ≤ ttl + 120 := by
  unfold randintDraws at h
  obtain ⟨i, hir, hji⟩ := List.mem_map.mp h
  have hi := List.mem_range.mp hir
  have hi121 : i < 121 := by simpa using hi
  unfold ttlWithJitter
  refine ⟨by omega, by omega, by omega, by omega⟩

theorem c9_jitter_amended_witness :
    0 ≤ (7 : ℤ) ∧ (7 : ℤ) ≤ 120 ∧ (3600 : ℤ) ≤ ttlWithJitter 3600 7 ∧
      ttlWithJitter 3600 7 ≤ 3600 + 120 :=
  c9_jitter_amended 3600 7 (by decide)

theorem pickBest_conf {l : List Candidate} {best : Candidate}
    (h : pickBest l = some best) : best.confidence ≥ CONFIDENCE_THRESHOLD := by
  cases l with
  | nil => exact absurd h (by simp [pickBest])
  | cons c rest =>
    simp only [pickBest] at h
    split_ifs at h with hc
    injection h with h
    subst h
    exact hc

theorem pickBest_low {c0 : Candidate} {rest : List Candidate}
    (h : c0.confidence < CONFIDENCE_THRESHOLD) :
    pickBest (c0 :: rest) = none := by
  simp only [pickBest]
  rw [if_neg (show ¬ (c0.confidence ≥ CONFIDENCE_THRESHOLD) from not_le.mpr h)]

theorem resolve_fst_eq (st : LinkerStages) (text : String) (filt : Option String) :
    (resolve st text filt).1 = pickBest (resolve st text filt).2 := by
  unfold resolve resolveWithTrace
  split_ifs with h
  · rfl
  · rfl

theorem resolve_candidates_sorted (st : LinkerStages) (text : String)
    (filt : Option String) : ((resolve st text filt).2).Sorted candOrder := by
  unfold resolve resolveWithTrace
  split_ifs with h
  · simp
  · exact List.sorted_insertionSort candOrder _

/-- C5: whenever the resolver returns a resolved result, its confidence
is at least the operating threshold 0.95; if the top candidate's confidence
is below 0.95, no resolved result is returned; and a syn id returned by
`resolve_or_quarantine` is the syn id of such a ≥ 0.95 best candidate. -/
theorem c5_resolved_confidence_threshold (st : LinkerStages) (text : String)
    (filt : Option String) :
    (∀ best cands, resolve st text filt = (some best, cands) →
      best.confidence ≥ CONFIDENCE_THRESHOLD) ∧
    (∀ b c0 rest, resolve st text filt = (b, c0 :: rest) →
      c0.confidence < CONFIDENCE_THRESHOLD → b = none) ∧
    (∀ ctx synId q, resolve_or_quarantine st text ctx filt = (some synId, q) →
      ∃ best cands, resolve st text filt = (some best, cands) ∧
        synId = best.synId ∧ best.confidence ≥ CONFIDENCE_THRESHOLD) := by
  refine ⟨?_, ?_, ?_⟩
  · intro best cands hres
    have h1 := resolve_fst_eq st text filt
    rw [hres] at h1
    exact pickBest_conf h1.symm
  · intro b c0 rest hres hlow
    have h1 := resolve_fst_eq st text filt
    rw [hres] at h1
    simpa [pickBest_low hlow] using h1
  · intro ctx synId q hrq
    unfold resolve_or_quarantine at hrq
    cases hres : resolve st text filt with
    | mk b cands =>
      rw [hres] at hrq
      cases b with
      | none => exact absurd hrq (by simp)
      | some best =>
        simp only at hrq
        injection hrq with hsyn _
        injection hsyn with hsyn
        refine ⟨best, cands, rfl, hsyn.symm, ?_⟩
        have h1 := resolve_fst_eq st text filt
        rw [hres] at h1
        exact pickBest_conf h1.symm

theorem c5_resolved_confidence_threshold_witness :
    cApple.confidence ≥ CONFIDENCE_THRESHOLD :=
  (c5_resolved_confidence_threshold (constStages [cApple] [] [] []) "AAPL"
    none).1 cApple [cApple] rfl

theorem stagesEvaluated_spec (st : LinkerStages) (text : String)
    (filt : Option String) :
    stagesEvaluated st text filt =
      if pyStrip text = "" then []
      else if isTickerLike (pyStrip text) then
        if st.tickerCandidates (pyStrip text) ≠ [] then [Stage.ticker]
        else if st.aliasExactCandidates (pyStrip text) ≠ [] then
          [Stage.ticker, Stage.aliasExact]
        else if st.canonicalNameCandidates (pyStrip text) ≠ [] then
          [Stage.ticker, Stage.aliasExact, Stage.canonicalName]
        else [Stage.ticker, Stage.aliasExact, Stage.canonicalName, Stage.aliasFuzzy]
      else
        if st.aliasExactCandidates (pyStrip text) ≠ [] then [Stage.aliasExact]
        else if st.canonicalNameCandidates (pyStrip text) ≠ [] then
          [Stage.aliasExact, Stage.canonicalName]
        else [Stage.aliasExact, Stage.canonicalName, Stage.aliasFuzzy] := by
  unfold stagesEvaluated resolveWithTrace cascadeCandidates
  by_cases h0 : pyStrip text = ""
  · simp [h0]
  · by_cases ht : isTickerLike (pyStrip text) = true
    · by_cases h1 : st.tickerCandidates (pyStrip text) = []
      · by_cases h2 : st.aliasExactCandidates (pyStrip text) = []
        · by_cases h3 : st.canonicalNameCandidates (pyStrip text) = []
          · simp [h0, ht, h1, h2, h3]
          · simp [h0, ht, h1, h2, h3]
        · simp [h0, ht, h1, h2]
      · simp [h0, ht, h1]
    · by_cases h2 : st.aliasExactCandidates (pyStrip text) = []
      · by_cases h3 : st.canonicalNameCandidates (pyStrip text) = []
        · simp [h0, ht, h2, h3]
        · simp [h0, ht, h2, h3]
      · simp [h0, ht, h2]

theorem isTickerLike_eq_shape_and_length (s : String) :
    isTickerLike s = (tickerShapeMatch s.data && decide (s.length ≤ 6)) := by
  unfold isTickerLike
  by_cases hs : s = ""
  · subst hs
    rfl
  · rw [if_neg hs]
    have hlen : s.length ≠ 0 := by
      intro h0
      apply hs
      apply String.ext
      have : s.data.length = 0 := h0
      simpa using List.length_eq_zero.mp this
    by_cases h6 : s.length > 6
    · rw [if_pos (Or.inr h6)]
      have hd : decide (s.length ≤ 6) = false := decide_eq_false (by omega)
      simp [hd]
    · rw [if_neg (by omega)]
      have hd : decide (s.length ≤ 6) = true := decide_eq_true (by omega)
      simp [hd]

theorem ticker_mem_stagesEvaluated (st : LinkerStages) (text : String)
    (filt : Option String) :
    Stage.ticker ∈ stagesEvaluated st text filt ↔
      pyStrip text ≠ "" ∧ isTickerLike (pyStrip text) = true := by
  rw [stagesEvaluated_spec]
  by_cases h0 : pyStrip text = ""
  · simp [h0]
  · rw [if_neg h0]
    by_cases ht : isTickerLike (pyStrip text) = true
    · rw [if_pos ht]
      constructor
      · exact fun _ => ⟨h0, ht⟩
      · intro _
        split_ifs <;> simp
    · rw [if_neg ht]
      constructor
      · intro hmem
        exact absurd hmem (by split_ifs <;> decide)
      · rintro ⟨-, hti⟩
        exact absurd hti ht

theorem stagesEvaluated_sublist (st : LinkerStages) (text : String)
    (filt : Option String) :
    (stagesEvaluated st text filt).Sublist
      [Stage.ticker, Stage.aliasExact, Stage.canonicalName, Stage.aliasFuzzy] := by
  rw [stagesEvaluated_spec]
  split_ifs <;> decide

theorem stagesEvaluated_shortCircuit (st : LinkerStages) (text : String)
    (filt : Option String) :
    ∀ s1 s2 : Stage, s1 ∈ stagesEvaluated st text filt →
      stageOutput st s1 (pyStrip text) ≠ [] → stageIndex s1 < stageIndex s2 →
      s2 ∉ stagesEvaluated st text filt := by
  rw [stagesEvaluated_spec]
  intro s1 s2 hs1 hout hlt
  split_ifs at hs1 ⊢ <;> cases s1 <;> cases s2 <;>
    simp_all [stageOutput, stageIndex]

/-- C6 (amended): `resolve` evaluates the stages in the order exact
ticker → exact alias → canonical-name full-text → fuzzy trigram alias; the
exact-ticker stage is attempted exactly when the raw trimmed input passes
`_is_ticker_like` — the regex `^[A-Z]{1,5}(\.[A-Z])?$` *and* the code's
additional length bound of at most 6 characters; and as soon as one stage
yields at least one candidate, no later stage is evaluated. -/
theorem c6_cascade_order_amended (st : LinkerStages) (text : String)
    (filt : Option String) :
    (∀ s : String,
      isTickerLike s = (tickerShapeMatch s.data && decide (s.length ≤ 6))) ∧
    (Stage.ticker ∈ stagesEvaluated st text filt ↔
      pyStrip text ≠ "" ∧ isTickerLike (pyStrip text) = true) ∧
    (stagesEvaluated st text filt).Sublist
      [Stage.ticker, Stage.aliasExact, Stage.canonicalName, Stage.aliasFuzzy] ∧
    (∀ s1 s2 : Stage, s1 ∈ stagesEvaluated st text filt →
      stageOutput st s1 (pyStrip text) ≠ [] → stageIndex s1 < stageIndex s2 →
      s2 ∉ stagesEvaluated st text filt) :=
  ⟨isTickerLike_eq_shape_and_length,
    ticker_mem_stagesEvaluated st text filt,
    stagesEvaluated_sublist st text filt,
    stagesEvaluated_shortCircuit st text filt⟩

theorem c6_cascade_order_amended_witness :
    Stage.aliasFuzzy ∉
      stagesEvaluated (constStages [cApple] [] [] []) "AAPL" none :=
  (c6_cascade_order_amended (constStages [cApple] [] [] []) "AAPL" none).2.2.2
    Stage.ticker Stage.aliasFuzzy (by decide) (by decide) (by decide)

/-- C6 (counterexample): `"ABCDE.F"` (7 characters) matches the claimed
regex `^[A-Z]{1,5}(\.[A-Z])?$` but `_is_ticker_like` rejects it because of
its additional `len > 6` check, so the exact-ticker stage is *not* attempted
on it — refuting "attempted exactly when the raw trimmed input matches the
regex". -/
theorem c6_ticker_length_counterexample :
    tickerShapeMatch ("ABCDE.F" : String).data = true ∧
    isTickerLike "ABCDE.F" = false ∧
    pyStrip "ABCDE.F" = "ABCDE.F" ∧
    Stage.ticker ∉
      stagesEvaluated (constStages [cApple] [] [] []) "ABCDE.F" none := by
  refine ⟨by decide, by decide, by decide, by decide⟩

/-- C10: the entity-type filter is applied only after the cascade has
short-circuited: when the trimmed input is ticker-like and the ticker stage
yields candidates, no later stage is evaluated even if every ticker candidate
fails the filter — `resolve` then returns `(None, [])`. -/
theorem c10_filter_after_shortcircuit (st : LinkerStages) (text ty : String)
    (h0 : pyStrip text ≠ "")
    (ht : isTickerLike (pyStrip text) = true)
    (hne : st.tickerCandidates (pyStrip text) ≠ [])
    (hfail : ∀ c ∈ st.tickerCandidates (pyStrip text), c.entityType ≠ ty) :
    resolve st text (some ty) = (none, []) ∧
    stagesEvaluated st text (some ty) = [Stage.ticker] := by
  have hc : (cascadeCandidates st (pyStrip text)).1 =
      st.tickerCandidates (pyStrip text) := by
    simp [cascadeCandidates, ht, hne]
  constructor
  · unfold resolve resolveWithTrace
    rw [if_neg h0]
    dsimp only
    rw [hc]
    have hfil : (st.tickerCandidates (pyStrip text)).filter
        (fun c => c.entityType == ty) = [] := by
      rw [List.filter_eq_nil_iff]
      intro c hcm
      simpa using hfail c hcm
    rw [hfil]
    rfl
  · rw [stagesEvaluated_spec, if_neg h0, if_pos ht, if_pos hne]

theorem c10_filter_after_shortcircuit_witness :
    resolve (constStages [cApple] [cPerson] [] []) "AAPL" (some "PERSON") =
      (none, []) ∧
    stagesEvaluated (constStages [cApple] [cPerson] [] []) "AAPL"
      (some "PERSON") = [Stage.ticker] :=
  c10_filter_after_shortcircuit (constStages [cApple] [cPerson] [] [])
    "AAPL" "PERSON" (by decide) (by decide) (by decide) (by decide)

/-- C7: whenever `resolve_or_quarantine` does not resolve, it creates a
quarantine record for the raw input whose context embeds the full candidate
list and whose reason is selected exactly as claimed: no-candidates for the
empty list; the ambiguous form (carrying the candidate count) when there are
at least two candidates and the top two confidences are within 0.10 of each
other (strict difference `< 0.1`); otherwise the low-confidence form carrying
the best confidence.  The candidate list is sorted descending, so the top-two
difference is the nonnegative gap. -/
theorem c7_quarantine_reasons (st : LinkerStages) (text : String)
    (filt : Option String) (rec : QuarantineRecord)
    (h : resolve_or_quarantine st text none filt = (none, some rec)) :
    rec.rawIdentifier = text ∧
    embeddedCandidates rec = (resolve st text filt).2 ∧
    ((resolve st text filt).2 = [] → rec.reason = .noCandidates) ∧
    (∀ c0 c1 rest, (resolve st text filt).2 = c0 :: c1 :: rest →
      ratSub c0.confidence c1.confidence < mkRat 1 10 →
      rec.reason = .ambiguous (c0 :: c1 :: rest).length) ∧
    (∀ c0 c1 rest, (resolve st text filt).2 = c0 :: c1 :: rest →
      ¬ (ratSub c0.confidence c1.confidence < mkRat 1 10) →
      rec.reason = .lowConfidence c0.confidence) ∧
    (∀ c0, (resolve st text filt).2 = [c0] →
      rec.reason = .lowConfidence c0.confidence) ∧
    ((resolve st text filt).2).Sorted candOrder := by
  unfold resolve_or_quarantine at h
  cases hres : resolve st text filt with
  | mk b cands =>
    rw [hres] at h
    cases b with
    | some best => exact absurd h (by simp)
    | none =>
      simp only at h
      injection h with h1 h2
      injection h2 with h2
      subst h2
      have hsorted := resolve_candidates_sorted st text filt
      rw [hres] at hsorted
      refine ⟨rfl, ?_, ?_, ?_, ?_, ?_, hsorted⟩
      · show embeddedCandidates _ = cands
        cases cands with
        | nil => rfl
        | cons c cs => simp [quarantine, embeddedCandidates]
      · intro hnil
        have hc : cands = [] := hnil
        subst hc
        rfl
      · intro c0 c1 rest hcands hdiff
        have hc : cands = c0 :: c1 :: rest := hcands
        subst hc
        simp [quarantine, hdiff]
      · intro c0 c1 rest hcands hdiff
        have hc : cands = c0 :: c1 :: rest := hcands
        subst hc
        simp [quarantine, hdiff]
      · intro c0 hcands
        have hc : cands = [c0] := hcands
        subst hc
        rfl

theorem c7_quarantine_reasons_witness :
    (⟨"zzz", none, none, .noCandidates⟩ : QuarantineRecord).reason =
      QuarantineReason.noCandidates :=
  (c7_quarantine_reasons (constStages [] [] [] []) "zzz" none
    ⟨"zzz", none, none, .noCandidates⟩ rfl).2.2.1 rfl

end Nexus
